import Mathlib

/-! ## sentry-fiber: request snapshot conversion and panic-recovering middleware

A shallow embedding of `sentryfiber.go`.

* Go strings and byte slices are both modelled as `String`; the conversion
  `string(b)` keeps the contents and is therefore the identity here.
* A Go call either returns or panics (`Outcome`).  A deferred function that
  calls `recover()` stops the panic; the enclosing function then returns the
  zero value of an unnamed result.
* The Go standard library (`url.Parse`, header-key canonicalisation, cookie
  sanitising) and the Sentry SDK (`RecoverWithContext`) are collaborators
  outside the repository; they are taken as parameters (`Lib`, `Sdk`).
* Pointers to hubs are modelled by natural-number identities; `nil` is `none`.
* The calls a request makes (SDK calls, accessor calls, the re-raise) are
  recorded in program order in a list of `Call`, so that "exactly once",
  "never" and "before" can be stated.
-/

namespace SentryFiber

/-! ## Go control flow -/

/-- A value carried by a Go panic, as `recover()` reports it: a non-nil
interface value (a string, an error, or the runtime error of a nil
dereference).  The statement `panic(nil)` is outside the model. -/
inductive PanicVal where
  | str (s : String)
  | err (msg : String)
  | nilDeref
  deriving DecidableEq

/-- How a Go call ends: it returns a value or it panics. -/
inductive Outcome (α : Type) where
  | ret (a : α)
  | panic (v : PanicVal)
  deriving DecidableEq

/-! ## Association lists (Go maps and fasthttp user values keyed by string) -/

/-- Read the entry stored under `k`. -/
def fetch {β : Type} (k : String) : List (String × β) → Option β
  | [] => none
  | (k', v) :: t => if k' = k then some v else fetch k t

/-- Write `v` under `k`, replacing an entry already there. -/
def store {β : Type} (k : String) (v : β) : List (String × β) → List (String × β)
  | [] => [(k, v)]
  | (k', v') :: t => if k' = k then (k, v) :: t else (k', v') :: store k v t

/-! ## net/http and net/url data -/

/-- The fields of `url.URL` that `convert` and its callers touch. -/
structure URL where
  Scheme : String
  Host : String
  Path : String
  RawQuery : String
  deriving DecidableEq

/-- The Go type `http.Header`: a map from canonical key to its values. -/
abbrev Header := List (String × List String)

/-- The Go expression `h[k]`: the values under the exact key `k`, nil when absent. -/
def Header.raw (h : Header) (k : String) : List String :=
  (fetch k h).getD []

/-- Standard-library collaborators of `convert`. -/
structure Lib where
  /-- The function `url.Parse`; `none` when it reports an error (the URL is then nil). -/
  parseURL : String → Option URL
  /-- The function `textproto.CanonicalMIMEHeaderKey`. -/
  canonicalKey : String → String
  /-- The function `sanitizeCookieName` of net/http. -/
  sanitizeCookieName : String → String
  /-- The function `sanitizeCookieValue` of net/http. -/
  sanitizeCookieValue : String → String

/-- The method `http.Header.Add`: append `value` to the values of the canonical key. -/
def Header.Add (lib : Lib) (h : Header) (key value : String) : Header :=
  store (lib.canonicalKey key) (h.raw (lib.canonicalKey key) ++ [value]) h

/-- The method `http.Header.Set`: the canonical key gets exactly `[value]`. -/
def Header.Set (lib : Lib) (h : Header) (key value : String) : Header :=
  store (lib.canonicalKey key) [value] h

/-- The method `http.Header.Values`: all values of the canonical key. -/
def Header.Values (lib : Lib) (h : Header) (key : String) : List String :=
  h.raw (lib.canonicalKey key)

/-- The method `http.Header.Get`: first value of the canonical key, or `""`. -/
def Header.Get (lib : Lib) (h : Header) (key : String) : String :=
  (Header.Values lib h key).headD ""

/-- The fields of `http.Request` written by `convert`; the defaults are the
Go zero values of `new(http.Request)`. -/
structure Request where
  Method : String := ""
  URL : Option URL := none
  Header : Header := []
  Host : String := ""
  RemoteAddr : String := ""
  Body : Option String := none
  deriving DecidableEq

/-- The method `(*http.Request).AddCookie`: the pair is appended to the single
`Cookie` header line, which is rewritten with `Header.Set`. -/
def Request.AddCookie (lib : Lib) (r : Request) (name value : String) : Request :=
  let s := lib.sanitizeCookieName name ++ "=" ++ lib.sanitizeCookieValue value
  let c := Header.Get lib r.Header "Cookie"
  if c ≠ "" then
    { r with Header := Header.Set lib r.Header "Cookie" (c ++ "; " ++ s) }
  else
    { r with Header := Header.Set lib r.Header "Cookie" s }

/-! ## The native request (`fasthttp.RequestCtx`) -/

/-- A native iteration (`VisitAll`, `VisitAllCookie`): the pairs handed to the
callback, in native order, and the fault the iteration ends in, if any. -/
structure Visit where
  items : List (String × String)
  fault : Option PanicVal := none
  deriving DecidableEq

/-- Run an iteration with callback `f` over an accumulator. -/
def Visit.run {σ : Type} (v : Visit) (f : σ → String → String → σ) (s : σ) :
    Except PanicVal σ :=
  let s' := v.items.foldl (fun acc kv => f acc kv.1 kv.2) s
  match v.fault with
  | none => .ok s'
  | some e => .error e

/-- What `convert` and `Handle` read from a `*fasthttp.RequestCtx`. -/
structure RequestCtx where
  /-- The accessor `ctx.Method()`. -/
  Method : String
  /-- The accessor `ctx.URI().Scheme()`. -/
  Scheme : String
  /-- The accessors `ctx.URI().Host()` and `ctx.Host()` (the latter is the former). -/
  Host : String
  /-- The accessor `ctx.URI().Path()`. -/
  Path : String
  /-- The accessor `ctx.URI().QueryString()`. -/
  QueryString : String
  /-- The iteration `ctx.Request.Header.VisitAll`. -/
  Headers : Visit
  /-- The iteration `ctx.Request.Header.VisitAllCookie`. -/
  Cookies : Visit
  /-- The value `ctx.RemoteAddr().String()`. -/
  RemoteAddr : String
  /-- The accessor `ctx.Request.Body()`: the native request body as received. -/
  Body : String
  deriving DecidableEq

/-! ## convert -/

/-- The statements of `convert` between `r := new(http.Request)` and
`return r`; `.error` is a panic unwinding out of them. -/
def convertBody (lib : Lib) (ctx : RequestCtx) : Except PanicVal Request := do
  let r : Request := {}
  let r := { r with Method := ctx.Method }
  -- r.URL, _ = url.Parse(fmt.Sprintf("%s://%s%s", ...))   (error ignored)
  let r := { r with URL := lib.parseURL (ctx.Scheme ++ "://" ++ ctx.Host ++ ctx.Path) }
  -- Headers
  let r := { r with Header := [] }
  let r := { r with Header := Header.Add lib r.Header "Host" ctx.Host }
  let r ← ctx.Headers.run (fun r key value => { r with Header := Header.Add lib r.Header key value }) r
  let r := { r with Host := ctx.Host }
  -- Cookies
  let r ← ctx.Cookies.run (Request.AddCookie lib) r
  -- Env
  let r := { r with RemoteAddr := ctx.RemoteAddr }
  -- QueryString: r.URL.RawQuery = ...  dereferences r.URL
  let r ← match r.URL with
    | none => Except.error PanicVal.nilDeref
    | some u => Except.ok { r with URL := some { u with RawQuery := ctx.QueryString } }
  -- Body
  let r := { r with Body := some ctx.Body }
  return r

/-- What a call of `convert` yields: how it ends, and what its deferred
function printed to `sentry.Logger`. -/
structure ConvertResult where
  out : Outcome (Option Request)
  logged : List PanicVal
  deriving DecidableEq

/-- The function `convert`.  Its deferred function recovers every panic of the
body and prints it; the unnamed result is then the zero value, a nil pointer. -/
def convert (lib : Lib) (ctx : RequestCtx) : ConvertResult :=
  match convertBody lib ctx with
  | .ok r => { out := .ret (some r), logged := [] }
  | .error e => { out := .ret none, logged := [e] }

/-! ## The middleware -/

/-- The constant `valuesKey`. -/
def valuesKey : String := "sentry"

/-- A request-local value (`interface{}`) as `GetHubFromContext` tells it
apart: a `*sentry.Hub` (possibly a nil pointer) or a value of another type. -/
inductive LocalVal where
  | hub (p : Option Nat)
  | other (desc : String)
  deriving DecidableEq

/-- What the middleware uses of a `*fiber.Ctx`: the native request, the
request-local storage and the body accessor. -/
structure Ctx where
  /-- The native request returned by `c.Context()`. -/
  Context : RequestCtx
  /-- The request-local storage behind `c.Locals`. -/
  locals : List (String × LocalVal)
  /-- The value `c.Body()` returns.  Fiber decodes the native body according to
  the `Content-Encoding` header and yields the error text when decoding
  fails, so it need not be the native body; without such a header it is. -/
  Body : String := Context.Body
  deriving DecidableEq

/-- The call `c.Locals(key)`: the stored value, nil (`none`) when absent. -/
def Ctx.Locals (c : Ctx) (key : String) : Option LocalVal :=
  fetch key c.locals

/-- The call `c.Locals(key, value)`: overwrite the stored value. -/
def Ctx.SetLocals (c : Ctx) (key : String) (value : LocalVal) : Ctx :=
  { c with locals := store key value c.locals }

/-- The function `GetHubFromContext`: the type assertion succeeds exactly on a
stored `*sentry.Hub`; otherwise the result is nil. -/
def GetHubFromContext (c : Ctx) : Option Nat :=
  match c.Locals valuesKey with
  | some (LocalVal.hub p) => p
  | _ => none

/-- The struct `Options`; `Timeout` is a `time.Duration` in nanoseconds. -/
structure Options where
  Repanic : Bool := false
  WaitForDelivery : Bool := false
  Timeout : Int := 0
  deriving DecidableEq

/-- The struct `Handler`. -/
structure Handler where
  repanic : Bool
  waitForDelivery : Bool
  timeout : Int
  deriving DecidableEq

/-- The constant `time.Second`, in nanoseconds. -/
def Second : Int := 1000000000

/-- The function `New`. -/
def New (options : Options) : Handler :=
  let timeout := options.Timeout
  let timeout := if timeout = 0 then 2 * Second else timeout
  { repanic := options.Repanic, timeout := timeout, waitForDelivery := options.WaitForDelivery }

/-- An observable call made while a request is handled, in program order.
The first seven are made by the middleware; the last two by downstream code. -/
inductive Call where
  /-- The call `sentry.CurrentHub().Clone()` returning the hub `hub`. -/
  | clone (hub : Nat)
  /-- The diagnostic printed by the deferred function of `convert`. -/
  | logged (v : PanicVal)
  /-- The call `scope.SetRequest(r)` on the scope of `hub`. -/
  | setRequest (hub : Nat) (r : Option Request)
  /-- The call `scope.SetRequestBody(body)` on the scope of `hub`. -/
  | setRequestBody (hub : Nat) (body : String)
  /-- The call `hub.RecoverWithContext(_, v)`, whose context argument carries
  the native request `ctx`. -/
  | recoverWithContext (hub : Nat) (ctx : RequestCtx) (v : PanicVal)
  /-- The call `hub.Flush(timeout)`. -/
  | flush (hub : Nat) (timeout : Int)
  /-- The statement `panic(err)` of `recoverWithSentry`. -/
  | repanic (v : PanicVal)
  /-- A downstream call of `GetHubFromContext(c)` and what it returned. -/
  | accessor (result : Option Nat)
  /-- A downstream method call `op` on a hub (for instance `CaptureMessage`). -/
  | downstream (hub : Nat) (op : String)
  deriving DecidableEq

/-- The Sentry SDK as the middleware consumes it: whether
`hub.RecoverWithContext` yields an event identifier, given the hub, the native
request, the panic value and the calls made so far.  SDK calls themselves do
not panic. -/
structure Sdk where
  recoverWithContext : Nat → RequestCtx → PanicVal → List Call → Option String

/-- A downstream handler (the rest of the chain behind `c.Next()`), as a tree
of the actions it takes on the request. -/
inductive Prog where
  /-- Return `e` (nil or an error). -/
  | ret (e : Option String)
  /-- Raise a panic with value `v`. -/
  | panic (v : PanicVal)
  /-- Call `GetHubFromContext(c)` and continue with its result. -/
  | getHub (k : Option Nat → Prog)
  /-- Call `c.Locals(key, value)`. -/
  | setLocals (key : String) (value : LocalVal) (k : Prog)
  /-- Call method `op` on `hub`; on a nil hub this is a nil dereference. -/
  | hubCall (hub : Option Nat) (op : String) (k : Prog)

/-- The state a call leaves behind: how it ended, the request context and the
calls it made. -/
structure Run where
  out : Outcome (Option String)
  ctx : Ctx
  calls : List Call
  deriving DecidableEq

/-- Execute a downstream handler on the request context `c`. -/
def Prog.run : Prog → Ctx → Run
  | .ret e, c => { out := .ret e, ctx := c, calls := [] }
  | .panic v, c => { out := .panic v, ctx := c, calls := [] }
  | .getHub k, c =>
    let r := (k (GetHubFromContext c)).run c
    { r with calls := Call.accessor (GetHubFromContext c) :: r.calls }
  | .setLocals key value k, c => k.run (c.SetLocals key value)
  | .hubCall none _ _, c => { out := .panic PanicVal.nilDeref, ctx := c, calls := [] }
  | .hubCall (some h) op k, c =>
    let r := k.run c
    { r with calls := Call.downstream h op :: r.calls }

/-- The method `Handler.recoverWithSentry`, run as a deferred call.
`panicking` is what `recover()` returns (`none` is nil: no panic in flight)
and `before` the calls made so far, on which the SDK may depend; the result is
the panic that leaves the function, if any, and the calls made. -/
def Handler.recoverWithSentry (sdk : Sdk) (h : Handler) (hub : Nat) (ctx : RequestCtx)
    (panicking : Option PanicVal) (before : List Call) : Option PanicVal × List Call :=
  match panicking with
  | none => (none, [])
  | some err =>
    let eventID := sdk.recoverWithContext hub ctx err before
    let c1 := [Call.recoverWithContext hub ctx err]
    let c2 := if eventID.isSome && h.waitForDelivery then [Call.flush hub h.timeout] else []
    if h.repanic then
      (some err, c1 ++ c2 ++ [Call.repanic err])
    else
      (none, c1 ++ c2)

/-- The method `Handler.Handle`.  `fresh` is the identity of the hub that
`sentry.CurrentHub().Clone()` allocates and `next` the handler run by
`c.Next()`. -/
def Handler.Handle (lib : Lib) (sdk : Sdk) (h : Handler) (fresh : Nat) (next : Prog)
    (c : Ctx) : Run :=
  let hub := fresh
  let cv := convert lib c.Context
  match cv.out with
  | .panic v => { out := .panic v, ctx := c, calls := Call.clone hub :: cv.logged.map Call.logged }
  | .ret req =>
    let pre := Call.clone hub :: cv.logged.map Call.logged
      ++ [Call.setRequest hub req, Call.setRequestBody hub c.Body]
    let c := c.SetLocals valuesKey (LocalVal.hub (some hub))
    -- defer h.recoverWithSentry(hub, c.Context()); return c.Next()
    let r := next.run c
    match r.out with
    | .ret e =>
      let d := h.recoverWithSentry sdk hub c.Context none (pre ++ r.calls)
      match d.1 with
      | none => { out := .ret e, ctx := r.ctx, calls := pre ++ r.calls ++ d.2 }
      | some v => { out := .panic v, ctx := r.ctx, calls := pre ++ r.calls ++ d.2 }
    | .panic v =>
      let d := h.recoverWithSentry sdk hub c.Context (some v) (pre ++ r.calls)
      match d.1 with
      | none => { out := .ret none, ctx := r.ctx, calls := pre ++ r.calls ++ d.2 }
      | some v' => { out := .panic v', ctx := r.ctx, calls := pre ++ r.calls ++ d.2 }

/-- The request context as `Handle` hands it to `c.Next()`: the cloned hub is
stored under `valuesKey`. -/
def Ctx.instrumented (c : Ctx) (fresh : Nat) : Ctx :=
  c.SetLocals valuesKey (LocalVal.hub (some fresh))

/-! ## Sample collaborators, used to evaluate the definitions on concrete requests -/

/-- Whether a character is an ASCII control character (below 0x20, or 0x7f). -/
def isCTL (ch : Char) : Bool :=
  ch.toNat < 32 || ch.toNat = 127

/-- Split `scheme://host/path`, given as characters, after the scheme. -/
def splitScheme : List Char → List Char → Option (List Char × List Char)
  | _, [] => none
  | acc, ':' :: '/' :: '/' :: rest => some (acc.reverse, rest)
  | acc, ch :: rest => splitScheme (ch :: acc) rest

/-- A fragment of `url.Parse`, enough for `scheme://host/path` inputs: like
`url.Parse` it rejects a string holding an ASCII control character. -/
def sampleParse (s : String) : Option URL :=
  if s.data.any isCTL then none
  else
    match splitScheme [] s.data with
    | none => none
    | some (scheme, rest) =>
      some { Scheme := String.mk scheme,
             Host := String.mk (rest.takeWhile (fun ch => ch != '/')),
             Path := String.mk (rest.dropWhile (fun ch => ch != '/')),
             RawQuery := "" }

/-- Sample library: keys that are already canonical, cookie parts that need
no sanitising. -/
def sampleLib : Lib :=
  { parseURL := sampleParse, canonicalKey := id, sanitizeCookieName := id,
    sanitizeCookieValue := id }

/-- Sample SDK: every recovered panic yields an event identifier. -/
def sampleSdk : Sdk :=
  { recoverWithContext := fun _ _ _ _ => some "event-1" }

/-- Sample SDK without a bound client: no event identifier is ever produced. -/
def silentSdk : Sdk :=
  { recoverWithContext := fun _ _ _ _ => none }

/-- The request `GET /panic` of the integration test (empty host). -/
def reqPanic : RequestCtx :=
  { Method := "GET", Scheme := "http", Host := "", Path := "/panic", QueryString := "",
    Headers := { items := [] }, Cookies := { items := [] }, RemoteAddr := "0.0.0.0:0",
    Body := "" }

/-- The request `POST /post` with body `payload` of the integration test. -/
def reqPost : RequestCtx :=
  { Method := "POST", Scheme := "http", Host := "", Path := "/post", QueryString := "",
    Headers := { items := [("Content-Length", "7")] }, Cookies := { items := [] },
    RemoteAddr := "0.0.0.0:0", Body := "payload" }

/-- The route `/panic` of the test application: `panic("test")`. -/
def routePanic : Prog := .panic (.str "test")

/-- The route `/post` of the test application: fetch the hub, capture a message. -/
def routePost : Prog := .getHub (fun hub => .hubCall hub "CaptureMessage" (.ret none))

/-- The request `GET /%0A` for host `example.com`: fasthttp decodes the path
to a slash followed by a line feed. -/
def reqCtl : RequestCtx :=
  { Method := "GET", Scheme := "http", Host := "example.com", Path := "/\n", QueryString := "",
    Headers := { items := [("Host", "example.com")] }, Cookies := { items := [] },
    RemoteAddr := "0.0.0.0:0", Body := "" }

/-- A request `GET /get` for host `example.com` carrying `Cookie: a=1` and a
repeated header: fasthttp visits the host first, and reports the cookie both
as a header and through the cookie iteration. -/
def reqCookie : RequestCtx :=
  { Method := "GET", Scheme := "http", Host := "example.com", Path := "/get", QueryString := "x=1",
    Headers := { items := [("Host", "example.com"), ("X-Tag", "one"), ("X-Tag", "two"),
                           ("Cookie", "a=1")] },
    Cookies := { items := [("a", "1")] },
    RemoteAddr := "10.0.0.1:4242", Body := "" }

/-- A request whose header iteration faults after the first header. -/
def reqHeaderFault : RequestCtx :=
  { reqCookie with Headers := { items := [("Host", "example.com")], fault := some (.err "visit") } }

/-- A request whose cookie iteration faults. -/
def reqCookieFault : RequestCtx :=
  { reqCookie with Cookies := { items := [], fault := some (.err "cookies") } }

/-- The request `POST /post` with body `payload` sent with
`Content-Encoding: gzip`, although the seven bytes are no gzip stream. -/
def reqGzip : RequestCtx :=
  { Method := "POST", Scheme := "http", Host := "", Path := "/post", QueryString := "",
    Headers := { items := [("Content-Length", "7"), ("Content-Encoding", "gzip")] },
    Cookies := { items := [] }, RemoteAddr := "0.0.0.0:0", Body := "payload" }

/-- The fiber context of `reqGzip`: decoding the body fails and `c.Body()`
returns the error text. -/
def ctxGzip : Ctx :=
  { Context := reqGzip, locals := [], Body := "unexpected EOF" }

/-- A downstream handler that stores a value of its own under the key
`sentry` and then asks for the hub. -/
def routeOverwrite : Prog :=
  .setLocals "sentry" (.other "string") (.getHub (fun _ => .ret none))

/-- A downstream handler that asks for the hub twice and returns an error. -/
def routeTwice : Prog :=
  .getHub (fun _ => .getHub (fun hub => .hubCall hub "CaptureMessage" (.ret (some "failed"))))

/-! ## Vocabulary of the statements -/

/-- The values the native header iteration yields for `name`, in encounter order. -/
def nativeValues (lib : Lib) (ctx : RequestCtx) (name : String) : List String :=
  (ctx.Headers.items.filter (fun kv => lib.canonicalKey kv.1 = lib.canonicalKey name)).map
    (fun kv => kv.2)

/-- Whether a call is `RecoverWithContext`. -/
def Call.isRecover : Call → Bool
  | .recoverWithContext _ _ _ => true
  | _ => false

/-- Whether a call is `Flush`. -/
def Call.isFlush : Call → Bool
  | .flush _ _ => true
  | _ => false

/-- Whether a call is the re-raise of `recoverWithSentry`. -/
def Call.isRepanic : Call → Bool
  | .repanic _ => true
  | _ => false

/-- A downstream handler that never writes request-local storage under `key`. -/
def Prog.keepsKey (key : String) : Prog → Prop
  | .ret _ => True
  | .panic _ => True
  | .getHub k => ∀ r, (k r).keepsKey key
  | .setLocals key' _ k => key' ≠ key ∧ k.keepsKey key
  | .hubCall _ _ k => k.keepsKey key

/-- The calls `Handle` makes before it hands over to `c.Next()`. -/
def Handler.prelude (lib : Lib) (fresh : Nat) (c : Ctx) (req : Option Request) : List Call :=
  Call.clone fresh :: (convert lib c.Context).logged.map Call.logged
    ++ [Call.setRequest fresh req, Call.setRequestBody fresh c.Body]

/-! ## Lemmas on association lists, headers and the conversion body -/

theorem fetch_store {β : Type} (k k' : String) (v : β) (l : List (String × β)) :
    fetch k' (store k v l) = if k' = k then some v else fetch k' l := by
  induction l with
  | nil =>
    by_cases h : k = k'
    · subst h; simp [store, fetch]
    · have h' : ¬ k' = k := fun e => h e.symm
      simp [store, fetch, h, h']
  | cons a t ih =>
    obtain ⟨ka, va⟩ := a
    by_cases h1 : ka = k
    · subst h1
      by_cases h2 : k' = ka
      · subst h2; simp [store, fetch]
      · have h2' : ¬ ka = k' := fun e => h2 e.symm
        simp [store, fetch, h2, h2']
    · by_cases h2 : ka = k'
      · subst h2
        simp [store, fetch, h1]
      · simp [store, fetch, h1, h2, ih]

theorem raw_store (k k' : String) (v : List String) (h : Header) :
    Header.raw (store k v h) k' = if k' = k then v else Header.raw h k' := by
  unfold Header.raw
  rw [fetch_store]
  split <;> simp

theorem raw_Add (lib : Lib) (h : Header) (key value k : String) :
    Header.raw (Header.Add lib h key value) k
      = if lib.canonicalKey key = k then Header.raw h k ++ [value] else Header.raw h k := by
  unfold Header.Add
  rw [raw_store]
  by_cases e : k = lib.canonicalKey key
  · subst e; simp
  · have e' : ¬ lib.canonicalKey key = k := fun x => e x.symm
    simp [e, e']

theorem foldl_Add_request (lib : Lib) (items : List (String × String)) (r : Request) :
    items.foldl (fun (acc : Request) kv => { acc with Header := Header.Add lib acc.Header kv.1 kv.2 }) r
      = { r with Header := items.foldl (fun acc kv => Header.Add lib acc kv.1 kv.2) r.Header } := by
  induction items generalizing r with
  | nil => rfl
  | cons a t ih => simp only [List.foldl_cons]; rw [ih]

theorem raw_foldl_Add (lib : Lib) (items : List (String × String)) (h : Header) (k : String) :
    Header.raw (items.foldl (fun acc kv => Header.Add lib acc kv.1 kv.2) h) k
      = Header.raw h k ++ (items.filter (fun kv => lib.canonicalKey kv.1 = k)).map (fun kv => kv.2) := by
  induction items generalizing h with
  | nil => simp
  | cons a t ih =>
    simp only [List.foldl_cons]
    rw [ih, raw_Add]
    by_cases e : lib.canonicalKey a.1 = k
    · simp [e, List.filter_cons]
    · simp [e, List.filter_cons]


theorem foldl_AddCookie_fields (lib : Lib) (items : List (String × String)) (r : Request) :
    (items.foldl (fun acc kv => Request.AddCookie lib acc kv.1 kv.2) r).Method = r.Method ∧
    (items.foldl (fun acc kv => Request.AddCookie lib acc kv.1 kv.2) r).URL = r.URL ∧
    (items.foldl (fun acc kv => Request.AddCookie lib acc kv.1 kv.2) r).Host = r.Host ∧
    (items.foldl (fun acc kv => Request.AddCookie lib acc kv.1 kv.2) r).RemoteAddr = r.RemoteAddr ∧
    (items.foldl (fun acc kv => Request.AddCookie lib acc kv.1 kv.2) r).Body = r.Body ∧
    ∀ k, k ≠ lib.canonicalKey "Cookie" →
      Header.raw (items.foldl (fun acc kv => Request.AddCookie lib acc kv.1 kv.2) r).Header k
        = Header.raw r.Header k := by
  induction items generalizing r with
  | nil => simp
  | cons a t ih =>
    simp only [List.foldl_cons]
    obtain ⟨h1, h2, h3, h4, h5, h6⟩ := ih (Request.AddCookie lib r a.1 a.2)
    have key : ∀ k, k ≠ lib.canonicalKey "Cookie" →
        Header.raw (Request.AddCookie lib r a.1 a.2).Header k = Header.raw r.Header k := by
      intro k hk
      unfold Request.AddCookie
      simp only []
      split <;> simp [Header.Set, raw_store, hk]
    refine ⟨?_, ?_, ?_, ?_, ?_, ?_⟩
    · rw [h1]; unfold Request.AddCookie; simp only []; split <;> rfl
    · rw [h2]; unfold Request.AddCookie; simp only []; split <;> rfl
    · rw [h3]; unfold Request.AddCookie; simp only []; split <;> rfl
    · rw [h4]; unfold Request.AddCookie; simp only []; split <;> rfl
    · rw [h5]; unfold Request.AddCookie; simp only []; split <;> rfl
    · intro k hk; rw [h6 k hk, key k hk]

theorem convertBody_eq (lib : Lib) (ctx : RequestCtx) :
    convertBody lib ctx =
      match ctx.Headers.fault with
      | some e => .error e
      | none =>
        match ctx.Cookies.fault with
        | some e => .error e
        | none =>
          match lib.parseURL (ctx.Scheme ++ "://" ++ ctx.Host ++ ctx.Path) with
          | none => .error PanicVal.nilDeref
          | some u =>
            .ok { Method := ctx.Method,
                  URL := some { u with RawQuery := ctx.QueryString },
                  Header := (ctx.Cookies.items.foldl (fun acc kv => Request.AddCookie lib acc kv.1 kv.2)
                    { Method := ctx.Method, URL := some u,
                      Header := ctx.Headers.items.foldl (fun acc kv => Header.Add lib acc kv.1 kv.2)
                        (Header.Add lib [] "Host" ctx.Host),
                      Host := ctx.Host }).Header,
                  Host := ctx.Host, RemoteAddr := ctx.RemoteAddr, Body := some ctx.Body } := by
  unfold convertBody
  simp only [Visit.run, bind, Except.bind, pure, Except.pure]
  rw [foldl_Add_request]
  cases hh : ctx.Headers.fault with
  | some e => simp
  | none =>
    cases hc : ctx.Cookies.fault with
    | some e => simp
    | none =>
      simp only []
      obtain ⟨h1, h2, h3, h4, h5, -⟩ := foldl_AddCookie_fields lib ctx.Cookies.items
        { Method := ctx.Method, URL := lib.parseURL (ctx.Scheme ++ "://" ++ ctx.Host ++ ctx.Path),
          Header := ctx.Headers.items.foldl (fun acc kv => Header.Add lib acc kv.1 kv.2)
                        (Header.Add lib [] "Host" ctx.Host),
          Host := ctx.Host }
      cases hp : lib.parseURL (ctx.Scheme ++ "://" ++ ctx.Host ++ ctx.Path) with
      | none =>
        rw [hp] at h2
        simp only [h2]
      | some u =>
        rw [hp] at h1 h2 h3 h4 h5
        simp only [h1, h2, h3, h4, h5]

/-! ## convert: what it returns -/

theorem convert_eq (lib : Lib) (ctx : RequestCtx) :
    convert lib ctx =
      match convertBody lib ctx with
      | .ok r => { out := .ret (some r), logged := [] }
      | .error e => { out := .ret none, logged := [e] } := rfl

theorem convert_ret (lib : Lib) (ctx : RequestCtx) :
    ∃ req, (convert lib ctx).out = .ret req := by
  rw [convert_eq]
  cases convertBody lib ctx with
  | ok r => exact ⟨some r, rfl⟩
  | error e => exact ⟨none, rfl⟩

theorem convert_some (lib : Lib) (ctx : RequestCtx) (r : Request)
    (h : (convert lib ctx).out = .ret (some r)) : convertBody lib ctx = .ok r := by
  rw [convert_eq] at h
  cases hb : convertBody lib ctx with
  | ok r' =>
    rw [hb] at h
    simp only [Outcome.ret.injEq, Option.some.injEq] at h
    rw [h]
  | error e =>
    rw [hb] at h
    simp at h

theorem convert_parse_failure (lib : Lib) (ctx : RequestCtx)
    (hp : lib.parseURL (ctx.Scheme ++ "://" ++ ctx.Host ++ ctx.Path) = none) :
    (convert lib ctx).out = .ret none := by
  rw [convert_eq, convertBody_eq, hp]
  cases ctx.Headers.fault with
  | some e => rfl
  | none =>
    cases ctx.Cookies.fault with
    | some e => rfl
    | none => rfl

theorem convert_success (lib : Lib) (ctx : RequestCtx) (u : URL)
    (hp : lib.parseURL (ctx.Scheme ++ "://" ++ ctx.Host ++ ctx.Path) = some u)
    (hh : ctx.Headers.fault = none) (hc : ctx.Cookies.fault = none) :
    convert lib ctx =
      { out := .ret (some
          { Method := ctx.Method,
            URL := some { u with RawQuery := ctx.QueryString },
            Header := (ctx.Cookies.items.foldl (fun acc kv => Request.AddCookie lib acc kv.1 kv.2)
              { Method := ctx.Method, URL := some u,
                Header := ctx.Headers.items.foldl (fun acc kv => Header.Add lib acc kv.1 kv.2)
                  (Header.Add lib [] "Host" ctx.Host),
                Host := ctx.Host }).Header,
            Host := ctx.Host, RemoteAddr := ctx.RemoteAddr, Body := some ctx.Body }),
        logged := [] } := by
  rw [convert_eq, convertBody_eq, hp, hh, hc]

theorem convert_body_field (lib : Lib) (ctx : RequestCtx) (r : Request)
    (h : (convert lib ctx).out = .ret (some r)) : r.Body = some ctx.Body := by
  have hb := convert_some lib ctx r h
  rw [convertBody_eq] at hb
  cases hh : ctx.Headers.fault with
  | some e => rw [hh] at hb; simp at hb
  | none =>
    cases hc : ctx.Cookies.fault with
    | some e => rw [hh, hc] at hb; simp at hb
    | none =>
      cases hp : lib.parseURL (ctx.Scheme ++ "://" ++ ctx.Host ++ ctx.Path) with
      | none => rw [hh, hc, hp] at hb; simp at hb
      | some u =>
        rw [hh, hc, hp] at hb
        simp only [Except.ok.injEq] at hb
        rw [← hb]

/-- Claim C6: when the concatenation scheme, "://", host, path parses as a URL
(and the native iterations complete), `convert` returns a snapshot whose
Method is the native method unchanged and whose URL is the parsed URL with its
raw query set to the native query string. -/
theorem convert_method_url (lib : Lib) (ctx : RequestCtx) (u : URL)
    (hp : lib.parseURL (ctx.Scheme ++ "://" ++ ctx.Host ++ ctx.Path) = some u)
    (hh : ctx.Headers.fault = none) (hc : ctx.Cookies.fault = none) :
    ∃ r, convert lib ctx = { out := .ret (some r), logged := [] } ∧
      r.Method = ctx.Method ∧
      r.URL = some { Scheme := u.Scheme, Host := u.Host, Path := u.Path,
                     RawQuery := ctx.QueryString } :=
  ⟨_, convert_success lib ctx u hp hh hc, rfl, rfl⟩

/-- Witness for C6: `GET /panic` with empty host parses from `http:///panic`
and yields method `GET` and the URL with scheme `http`, empty host and path
`/panic`. -/
theorem convert_method_url_witness :
    reqPanic.Scheme ++ "://" ++ reqPanic.Host ++ reqPanic.Path = "http:///panic" ∧
    ∃ r, convert sampleLib reqPanic = { out := .ret (some r), logged := [] } ∧
      r.Method = "GET" ∧
      r.URL = some { Scheme := "http", Host := "", Path := "/panic", RawQuery := "" } :=
  ⟨by decide,
   convert_method_url sampleLib reqPanic
     { Scheme := "http", Host := "", Path := "/panic", RawQuery := "" }
     (by decide) (by decide) (by decide)⟩

/-! ## convert: headers -/

theorem snapshot_values (lib : Lib) (ctx : RequestCtx) (u : URL) (name : String)
    (hk : lib.canonicalKey name ≠ lib.canonicalKey "Cookie" ∨ ctx.Cookies.items = []) :
    Header.Values lib
      (ctx.Cookies.items.foldl (fun acc kv => Request.AddCookie lib acc kv.1 kv.2)
        { Method := ctx.Method, URL := some u,
          Header := ctx.Headers.items.foldl (fun acc kv => Header.Add lib acc kv.1 kv.2)
            (Header.Add lib [] "Host" ctx.Host),
          Host := ctx.Host }).Header name
      = (if lib.canonicalKey "Host" = lib.canonicalKey name then [ctx.Host] else [])
          ++ nativeValues lib ctx name := by
  have base : Header.raw (ctx.Headers.items.foldl (fun acc kv => Header.Add lib acc kv.1 kv.2)
      (Header.Add lib [] "Host" ctx.Host)) (lib.canonicalKey name)
      = (if lib.canonicalKey "Host" = lib.canonicalKey name then [ctx.Host] else [])
          ++ nativeValues lib ctx name := by
    rw [raw_foldl_Add, raw_Add]
    unfold nativeValues
    congr 1
  unfold Header.Values
  rcases hk with hk | hk
  · rw [(foldl_AddCookie_fields lib ctx.Cookies.items _).2.2.2.2.2 _ hk]
    exact base
  · rw [hk]
    exact base

/-- Claim C8, as amended: when `convert` returns a snapshot, then for every
header name other than `Cookie` (and for `Cookie` too when the request has no
cookies) the values listed under that name are the synthesized host first, if
the name is `Host`, followed by all native values of that name in encounter
order; so every such native pair is present and exactly one `Host` entry is
synthesized, ahead of any native `Host` header. -/
theorem convert_headers (lib : Lib) (ctx : RequestCtx) (r : Request)
    (h : (convert lib ctx).out = .ret (some r)) (name : String)
    (hk : lib.canonicalKey name ≠ lib.canonicalKey "Cookie" ∨ ctx.Cookies.items = []) :
    Header.Values lib r.Header name
        = (if lib.canonicalKey "Host" = lib.canonicalKey name then [ctx.Host] else [])
            ++ nativeValues lib ctx name ∧
    (∀ kv ∈ ctx.Headers.items, lib.canonicalKey kv.1 = lib.canonicalKey name →
        kv.2 ∈ Header.Values lib r.Header name) := by
  have hb := convert_some lib ctx r h
  rw [convertBody_eq] at hb
  have main : Header.Values lib r.Header name
        = (if lib.canonicalKey "Host" = lib.canonicalKey name then [ctx.Host] else [])
            ++ nativeValues lib ctx name := by
    cases hh : ctx.Headers.fault with
    | some e => rw [hh] at hb; simp at hb
    | none =>
      cases hc : ctx.Cookies.fault with
      | some e => rw [hh, hc] at hb; simp at hb
      | none =>
        cases hp : lib.parseURL (ctx.Scheme ++ "://" ++ ctx.Host ++ ctx.Path) with
        | none => rw [hh, hc, hp] at hb; simp at hb
        | some u =>
          rw [hh, hc, hp] at hb
          simp only [Except.ok.injEq] at hb
          rw [← hb]
          exact snapshot_values lib ctx u name hk
  refine ⟨main, ?_⟩
  intro kv hkv hname
  rw [main]
  apply List.mem_append_right
  unfold nativeValues
  exact List.mem_map.mpr ⟨kv, List.mem_filter.mpr ⟨hkv, by simpa using hname⟩, rfl⟩

/-- Witness for C8 as amended: on a request with a native `Host` header, a
repeated `X-Tag` header and a cookie, the snapshot lists the synthesized host
first under `Host` and both `X-Tag` values in order. -/
theorem convert_headers_witness :
    (∃ r, (convert sampleLib reqCookie).out = .ret (some r) ∧
      Header.Values sampleLib r.Header "Host" = ["example.com", "example.com"]) ∧
    (∃ r, (convert sampleLib reqCookie).out = .ret (some r) ∧
      Header.Values sampleLib r.Header "X-Tag" = ["one", "two"]) :=
  ⟨⟨_, rfl, (convert_headers sampleLib reqCookie _ rfl "Host" (Or.inl (by decide))).1⟩,
   ⟨_, rfl, (convert_headers sampleLib reqCookie _ rfl "X-Tag" (Or.inl (by decide))).1⟩⟩

/-- Counterexample to C8 as stated: the request with `Cookie: a=1` yields a
snapshot whose `Cookie` values are the single line `a=1; a=1`, so the native
pair (`Cookie`, `a=1`) is not in the header multimap. -/
theorem cookie_pair_lost :
    ¬ (∀ (lib : Lib) (ctx : RequestCtx) (r : Request),
        (convert lib ctx).out = .ret (some r) →
        ∀ kv ∈ ctx.Headers.items, kv.2 ∈ Header.Values lib r.Header kv.1) := by
  intro hall
  have h := hall sampleLib reqCookie _ rfl ("Cookie", "a=1") (by decide)
  revert h
  decide

/-! ## convert: faults -/

/-- Claim C9: `convert` never ends in a panic.  A fault of the header
iteration, of the cookie iteration, or the nil dereference after a failed URL
parse is caught by the deferred function, printed, and `convert` returns. -/
theorem convert_never_panics (lib : Lib) (ctx : RequestCtx) :
    (∀ v, (convert lib ctx).out ≠ .panic v) ∧
    (∀ e, ctx.Headers.fault = some e →
        convert lib ctx = { out := .ret none, logged := [e] }) ∧
    (∀ e, ctx.Headers.fault = none → ctx.Cookies.fault = some e →
        convert lib ctx = { out := .ret none, logged := [e] }) ∧
    (ctx.Headers.fault = none → ctx.Cookies.fault = none →
        lib.parseURL (ctx.Scheme ++ "://" ++ ctx.Host ++ ctx.Path) = none →
        convert lib ctx = { out := .ret none, logged := [PanicVal.nilDeref] }) := by
  refine ⟨?_, ?_, ?_, ?_⟩
  · intro v hv
    obtain ⟨req, hreq⟩ := convert_ret lib ctx
    rw [hreq] at hv
    simp at hv
  · intro e he
    rw [convert_eq, convertBody_eq, he]
  · intro e hh hc
    rw [convert_eq, convertBody_eq, hh, hc]
  · intro hh hc hp
    rw [convert_eq, convertBody_eq, hh, hc, hp]

/-- Witness for C9: a faulting header iteration, a faulting cookie iteration
and an unparseable URL each make `convert` return after printing the fault. -/
theorem convert_never_panics_witness :
    convert sampleLib reqHeaderFault = { out := .ret none, logged := [.err "visit"] } ∧
    convert sampleLib reqCookieFault = { out := .ret none, logged := [.err "cookies"] } ∧
    convert sampleLib reqCtl = { out := .ret none, logged := [.nilDeref] } :=
  ⟨(convert_never_panics sampleLib reqHeaderFault).2.1 _ (by decide),
   (convert_never_panics sampleLib reqCookieFault).2.2.1 _ (by decide) (by decide),
   (convert_never_panics sampleLib reqCtl).2.2.2 (by decide) (by decide) (by decide)⟩

/-- Claim C10 at the request `GET /%0A`: the concatenation does not parse, the
URL stays nil, the later assignment to its raw query dereferences nil, and
`convert` returns a nil snapshot: no Method survives. -/
theorem convert_unparseable_returns_nil :
    sampleLib.parseURL (reqCtl.Scheme ++ "://" ++ reqCtl.Host ++ reqCtl.Path) = none ∧
    convert sampleLib reqCtl = { out := .ret none, logged := [PanicVal.nilDeref] } := by
  decide

/-! ## The middleware: shape of a run of Handle -/

theorem run_calls_downstream (p : Prog) (c : Ctx) :
    ∀ x ∈ (p.run c).calls, (∃ r, x = Call.accessor r) ∨ (∃ hub op, x = Call.downstream hub op) := by
  induction p generalizing c with
  | ret e => intro x hx; simp [Prog.run] at hx
  | panic v => intro x hx; simp [Prog.run] at hx
  | getHub k ih =>
    intro x hx
    simp only [Prog.run, List.mem_cons] at hx
    rcases hx with hx | hx
    · exact Or.inl ⟨_, hx⟩
    · exact ih _ c x hx
  | setLocals key value k ih =>
    intro x hx
    simp only [Prog.run] at hx
    exact ih _ x hx
  | hubCall hub op k ih =>
    intro x hx
    cases hub with
    | none => simp [Prog.run] at hx
    | some h =>
      simp only [Prog.run, List.mem_cons] at hx
      rcases hx with hx | hx
      · exact Or.inr ⟨_, _, hx⟩
      · exact ih c x hx

theorem run_calls_filter (p : Prog) (c : Ctx) (f : Call → Bool)
    (hacc : ∀ r, f (Call.accessor r) = false) (hdown : ∀ hub op, f (Call.downstream hub op) = false) :
    (p.run c).calls.filter f = [] := by
  apply List.filter_eq_nil_iff.mpr
  intro x hx
  rcases run_calls_downstream p c x hx with ⟨r, rfl⟩ | ⟨hub, op, rfl⟩
  · simp [hacc]
  · simp [hdown]

theorem prelude_filter (lib : Lib) (fresh : Nat) (c : Ctx) (req : Option Request) (f : Call → Bool)
    (h1 : ∀ n, f (Call.clone n) = false) (h2 : ∀ v, f (Call.logged v) = false)
    (h3 : ∀ n r, f (Call.setRequest n r) = false) (h4 : ∀ n b, f (Call.setRequestBody n b) = false) :
    (Handler.prelude lib fresh c req).filter f = [] := by
  apply List.filter_eq_nil_iff.mpr
  intro x hx
  simp only [Handler.prelude, List.cons_append, List.mem_cons, List.mem_append, List.mem_map,
    List.mem_singleton, List.not_mem_nil, or_false] at hx
  rcases hx with rfl | ⟨v, -, rfl⟩ | rfl | rfl
  · simp [h1]
  · simp [h2]
  · simp [h3]
  · simp [h4]

theorem SetLocals_Context (c : Ctx) (key : String) (value : LocalVal) :
    (c.SetLocals key value).Context = c.Context := rfl

theorem Handle_of_ret (lib : Lib) (sdk : Sdk) (h : Handler) (fresh : Nat) (next : Prog) (c : Ctx)
    (req : Option Request) (e : Option String)
    (hreq : (convert lib c.Context).out = .ret req)
    (he : (next.run (c.instrumented fresh)).out = .ret e) :
    h.Handle lib sdk fresh next c =
      { out := .ret e, ctx := (next.run (c.instrumented fresh)).ctx,
        calls := Handler.prelude lib fresh c req ++ (next.run (c.instrumented fresh)).calls } := by
  unfold Ctx.instrumented at he
  simp [Handler.Handle, hreq, he, Handler.recoverWithSentry, Handler.prelude, Ctx.instrumented]

theorem Handle_of_panic (lib : Lib) (sdk : Sdk) (h : Handler) (fresh : Nat) (next : Prog) (c : Ctx)
    (req : Option Request) (v : PanicVal)
    (hreq : (convert lib c.Context).out = .ret req)
    (hv : (next.run (c.instrumented fresh)).out = .panic v) :
    h.Handle lib sdk fresh next c =
      { out := if h.repanic then .panic v else .ret none,
        ctx := (next.run (c.instrumented fresh)).ctx,
        calls := (Handler.prelude lib fresh c req ++ (next.run (c.instrumented fresh)).calls)
          ++ [Call.recoverWithContext fresh c.Context v]
          ++ (if (sdk.recoverWithContext fresh c.Context v
                    (Handler.prelude lib fresh c req ++ (next.run (c.instrumented fresh)).calls)).isSome
                  && h.waitForDelivery
              then [Call.flush fresh h.timeout] else [])
          ++ (if h.repanic then [Call.repanic v] else []) } := by
  unfold Ctx.instrumented at hv
  cases hr : h.repanic <;>
    simp [Handler.Handle, hreq, hv, Handler.recoverWithSentry, Handler.prelude, Ctx.instrumented, hr,
      SetLocals_Context]

theorem Handle_calls (lib : Lib) (sdk : Sdk) (h : Handler) (fresh : Nat) (next : Prog) (c : Ctx) :
    ∃ req tail, (convert lib c.Context).out = .ret req ∧
      (h.Handle lib sdk fresh next c).calls
        = Handler.prelude lib fresh c req ++ (next.run (c.instrumented fresh)).calls ++ tail ∧
      ∀ x ∈ tail, (∃ hub rc v, x = Call.recoverWithContext hub rc v) ∨ (∃ hub t, x = Call.flush hub t)
        ∨ (∃ v, x = Call.repanic v) := by
  obtain ⟨req, hreq⟩ := convert_ret lib c.Context
  cases ho : (next.run (c.instrumented fresh)).out with
  | ret e =>
    refine ⟨req, [], hreq, ?_, ?_⟩
    · rw [Handle_of_ret lib sdk h fresh next c req e hreq ho]; simp
    · intro x hx; simp at hx
  | panic v =>
    refine ⟨req, [Call.recoverWithContext fresh c.Context v]
          ++ (if (sdk.recoverWithContext fresh c.Context v
                    (Handler.prelude lib fresh c req ++ (next.run (c.instrumented fresh)).calls)).isSome
                  && h.waitForDelivery
              then [Call.flush fresh h.timeout] else [])
          ++ (if h.repanic then [Call.repanic v] else []), hreq, ?_, ?_⟩
    · rw [Handle_of_panic lib sdk h fresh next c req v hreq ho]
      simp only [List.append_assoc]
    · intro x hx
      simp only [List.mem_append, List.mem_singleton] at hx
      rcases hx with (rfl | hx) | hx
      · exact Or.inl ⟨_, _, _, rfl⟩
      · split at hx
        · simp only [List.mem_singleton] at hx
          exact Or.inr (Or.inl ⟨_, _, hx⟩)
        · simp at hx
      · split at hx
        · simp only [List.mem_singleton] at hx
          exact Or.inr (Or.inr ⟨_, hx⟩)
        · simp at hx

/-! ## The middleware: panics -/

/-- Claim C1: when the downstream handler panics with value `v`, a handler
built with `Repanic = true` lets the same `v` propagate out of `Handle`, and a
handler built with `Repanic = false` makes `Handle` return normally with a nil
error. -/
theorem Handle_repanic_or_swallow (lib : Lib) (sdk : Sdk) (opts : Options) (fresh : Nat)
    (next : Prog) (c : Ctx) (v : PanicVal)
    (hv : (next.run (c.instrumented fresh)).out = .panic v) :
    (opts.Repanic = true → ((New opts).Handle lib sdk fresh next c).out = .panic v) ∧
    (opts.Repanic = false → ((New opts).Handle lib sdk fresh next c).out = .ret none) := by
  obtain ⟨req, hreq⟩ := convert_ret lib c.Context
  rw [Handle_of_panic lib sdk (New opts) fresh next c req v hreq hv]
  constructor
  · intro hr; simp [New, hr]
  · intro hr; simp [New, hr]

/-- Witness for C1: the `/panic` route of the test application, with and
without `Repanic`. -/
theorem Handle_repanic_or_swallow_witness :
    ((New { Repanic := true }).Handle sampleLib sampleSdk 7 routePanic
        { Context := reqPanic, locals := [] }).out = .panic (.str "test") ∧
    ((New {}).Handle sampleLib sampleSdk 7 routePanic
        { Context := reqPanic, locals := [] }).out = .ret none :=
  ⟨(Handle_repanic_or_swallow sampleLib sampleSdk { Repanic := true } 7 routePanic
      { Context := reqPanic, locals := [] } (.str "test") rfl).1 rfl,
   (Handle_repanic_or_swallow sampleLib sampleSdk {} 7 routePanic
      { Context := reqPanic, locals := [] } (.str "test") rfl).2 rfl⟩

/-- Claim C2: when the downstream handler panics with `v`, the calls of
`Handle` hold exactly one `RecoverWithContext`, on the hub cloned at entry and
with value `v`; when the downstream handler returns (nil or an error), `Handle`
makes no `RecoverWithContext` and no `Flush` call. -/
theorem Handle_reports_panic_once (lib : Lib) (sdk : Sdk) (h : Handler) (fresh : Nat)
    (next : Prog) (c : Ctx) :
    (h.Handle lib sdk fresh next c).calls.head? = some (Call.clone fresh) ∧
    (∀ v, (next.run (c.instrumented fresh)).out = .panic v →
      (h.Handle lib sdk fresh next c).calls.filter Call.isRecover
        = [Call.recoverWithContext fresh c.Context v]) ∧
    (∀ e, (next.run (c.instrumented fresh)).out = .ret e →
      (h.Handle lib sdk fresh next c).calls.filter (fun x => x.isRecover || x.isFlush) = []) := by
  obtain ⟨req, hreq⟩ := convert_ret lib c.Context
  refine ⟨?_, ?_, ?_⟩
  · obtain ⟨req', tail, -, hc, -⟩ := Handle_calls lib sdk h fresh next c
    rw [hc]
    simp [Handler.prelude]
  · intro v hv
    rw [Handle_of_panic lib sdk h fresh next c req v hreq hv]
    simp only [List.filter_append]
    rw [prelude_filter lib fresh c req Call.isRecover (fun _ => rfl) (fun _ => rfl)
          (fun _ _ => rfl) (fun _ _ => rfl),
        run_calls_filter next _ Call.isRecover (fun _ => rfl) (fun _ _ => rfl)]
    cases h.repanic <;>
      cases (sdk.recoverWithContext fresh c.Context v
        (Handler.prelude lib fresh c req ++ (next.run (c.instrumented fresh)).calls)).isSome
          && h.waitForDelivery <;>
      simp [Call.isRecover]
  · intro e he
    rw [Handle_of_ret lib sdk h fresh next c req e hreq he]
    simp only [List.filter_append]
    rw [prelude_filter lib fresh c req _ (fun _ => rfl) (fun _ => rfl)
          (fun _ _ => rfl) (fun _ _ => rfl),
        run_calls_filter next _ _ (fun _ => rfl) (fun _ _ => rfl)]
    rfl

/-- Witness for C2: the `/panic` route reports `test` once on hub 7; the
`/post` route, which returns, triggers no report and no flush. -/
theorem Handle_reports_panic_once_witness :
    ((New { WaitForDelivery := true }).Handle sampleLib sampleSdk 7 routePanic
        { Context := reqPanic, locals := [] }).calls.filter Call.isRecover
      = [Call.recoverWithContext 7 reqPanic (.str "test")] ∧
    ((New { WaitForDelivery := true }).Handle sampleLib sampleSdk 7 routePost
        { Context := reqPost, locals := [] }).calls.filter (fun x => x.isRecover || x.isFlush)
      = [] :=
  ⟨(Handle_reports_panic_once sampleLib sampleSdk (New { WaitForDelivery := true }) 7 routePanic
      { Context := reqPanic, locals := [] }).2.1 (.str "test") rfl,
   (Handle_reports_panic_once sampleLib sampleSdk (New { WaitForDelivery := true }) 7 routePost
      { Context := reqPost, locals := [] }).2.2 none rfl⟩

/-- Claim C3: for every `Options` value, after a downstream panic the calls of
`Handle` end with `RecoverWithContext`, then `Flush` on the same hub exactly
when an event identifier was produced and `WaitForDelivery` is set, then the
re-raise if configured.  The timeout passed is `Options.Timeout` when that is
non-zero and two seconds otherwise.  Nothing earlier is a `Flush`, and a run
without a panic has no `Flush` at all. -/
theorem Handle_flush (lib : Lib) (sdk : Sdk) (opts : Options) (fresh : Nat)
    (next : Prog) (c : Ctx) :
    (∀ v, (next.run (c.instrumented fresh)).out = .panic v →
      ∃ before, before.filter (fun x => x.isFlush || x.isRepanic) = [] ∧
        ((New opts).Handle lib sdk fresh next c).calls
          = before ++ [Call.recoverWithContext fresh c.Context v]
            ++ (if (sdk.recoverWithContext fresh c.Context v before).isSome && opts.WaitForDelivery
                then [Call.flush fresh (if opts.Timeout = 0 then 2 * Second else opts.Timeout)]
                else [])
            ++ (if opts.Repanic then [Call.repanic v] else []) ∧
        ((New opts).Handle lib sdk fresh next c).calls.filter Call.isFlush
          = (if (sdk.recoverWithContext fresh c.Context v before).isSome && opts.WaitForDelivery
             then [Call.flush fresh (if opts.Timeout = 0 then 2 * Second else opts.Timeout)]
             else [])) ∧
    (∀ e, (next.run (c.instrumented fresh)).out = .ret e →
      ((New opts).Handle lib sdk fresh next c).calls.filter Call.isFlush = []) := by
  obtain ⟨req, hreq⟩ := convert_ret lib c.Context
  constructor
  · intro v hv
    refine ⟨Handler.prelude lib fresh c req ++ (next.run (c.instrumented fresh)).calls, ?_, ?_, ?_⟩
    · rw [List.filter_append,
        prelude_filter lib fresh c req _ (fun _ => rfl) (fun _ => rfl)
          (fun _ _ => rfl) (fun _ _ => rfl),
        run_calls_filter next _ _ (fun _ => rfl) (fun _ _ => rfl)]
      rfl
    · rw [Handle_of_panic lib sdk (New opts) fresh next c req v hreq hv]
      rfl
    · rw [Handle_of_panic lib sdk (New opts) fresh next c req v hreq hv]
      simp only [List.filter_append]
      rw [prelude_filter lib fresh c req _ (fun _ => rfl) (fun _ => rfl)
          (fun _ _ => rfl) (fun _ _ => rfl),
        run_calls_filter next _ _ (fun _ => rfl) (fun _ _ => rfl)]
      have hw : (New opts).waitForDelivery = opts.WaitForDelivery := rfl
      have ht : (New opts).timeout = (if opts.Timeout = 0 then 2 * Second else opts.Timeout) := rfl
      have hr : (New opts).repanic = opts.Repanic := rfl
      rw [hw, ht, hr]
      generalize (sdk.recoverWithContext fresh c.Context v
          (Handler.prelude lib fresh c req ++ (next.run (c.instrumented fresh)).calls)).isSome = b
      cases b <;> cases opts.WaitForDelivery <;> cases opts.Repanic <;> simp [Call.isFlush]
  · intro e he
    rw [Handle_of_ret lib sdk (New opts) fresh next c req e hreq he, List.filter_append,
        prelude_filter lib fresh c req _ (fun _ => rfl) (fun _ => rfl)
          (fun _ _ => rfl) (fun _ _ => rfl),
        run_calls_filter next _ _ (fun _ => rfl) (fun _ _ => rfl)]
    rfl

/-- Witness for C3: on the `/panic` route with `WaitForDelivery` and `Repanic`
set and a zero timeout the run ends in report, flush with two seconds,
re-raise; a configured timeout is passed on as it is; an SDK that yields no
event identifier gets no flush; a route that returns has no flush. -/
theorem Handle_flush_witness :
    (∃ before, before.filter (fun x => x.isFlush || x.isRepanic) = [] ∧
      ((New { Repanic := true, WaitForDelivery := true }).Handle sampleLib sampleSdk 7 routePanic
          { Context := reqPanic, locals := [] }).calls
        = before ++ [Call.recoverWithContext 7 reqPanic (.str "test")]
          ++ [Call.flush 7 2000000000] ++ [Call.repanic (.str "test")] ∧
      ((New { Repanic := true, WaitForDelivery := true }).Handle sampleLib sampleSdk 7 routePanic
          { Context := reqPanic, locals := [] }).calls.filter Call.isFlush
        = [Call.flush 7 2000000000]) ∧
    (∃ before, before.filter (fun x => x.isFlush || x.isRepanic) = [] ∧
      ((New { WaitForDelivery := true, Timeout := 500 }).Handle sampleLib sampleSdk 7 routePanic
          { Context := reqPanic, locals := [] }).calls
        = before ++ [Call.recoverWithContext 7 reqPanic (.str "test")]
          ++ [Call.flush 7 500] ++ [] ∧
      ((New { WaitForDelivery := true, Timeout := 500 }).Handle sampleLib sampleSdk 7 routePanic
          { Context := reqPanic, locals := [] }).calls.filter Call.isFlush
        = [Call.flush 7 500]) ∧
    (∃ before, before.filter (fun x => x.isFlush || x.isRepanic) = [] ∧
      ((New { WaitForDelivery := true }).Handle sampleLib silentSdk 7 routePanic
          { Context := reqPanic, locals := [] }).calls
        = before ++ [Call.recoverWithContext 7 reqPanic (.str "test")] ++ [] ++ [] ∧
      ((New { WaitForDelivery := true }).Handle sampleLib silentSdk 7 routePanic
          { Context := reqPanic, locals := [] }).calls.filter Call.isFlush = []) ∧
    ((New { Repanic := true, WaitForDelivery := true }).Handle sampleLib sampleSdk 7 routePost
        { Context := reqPost, locals := [] }).calls.filter Call.isFlush = [] :=
  ⟨(Handle_flush sampleLib sampleSdk { Repanic := true, WaitForDelivery := true } 7 routePanic
      { Context := reqPanic, locals := [] }).1 (.str "test") rfl,
   (Handle_flush sampleLib sampleSdk { WaitForDelivery := true, Timeout := 500 } 7 routePanic
      { Context := reqPanic, locals := [] }).1 (.str "test") rfl,
   (Handle_flush sampleLib silentSdk { WaitForDelivery := true } 7 routePanic
      { Context := reqPanic, locals := [] }).1 (.str "test") rfl,
   (Handle_flush sampleLib sampleSdk { Repanic := true, WaitForDelivery := true } 7 routePost
      { Context := reqPost, locals := [] }).2 none rfl⟩

/-! ## The accessor -/

/-- Claim C5: `GetHubFromContext` is a total function of the request-local
storage (it cannot fault): it returns the value stored under the key `sentry`
when that value is a hub, and nil when nothing is stored under that key or the
stored value has another type. -/
theorem GetHubFromContext_cases (c : Ctx) :
    valuesKey = "sentry" ∧
    (∀ p, c.Locals "sentry" = some (LocalVal.hub p) → GetHubFromContext c = p) ∧
    (c.Locals "sentry" = none → GetHubFromContext c = none) ∧
    (∀ d, c.Locals "sentry" = some (LocalVal.other d) → GetHubFromContext c = none) := by
  refine ⟨rfl, ?_, ?_, ?_⟩
  · intro p hp
    have hp' : c.Locals valuesKey = some (LocalVal.hub p) := hp
    simp [GetHubFromContext, hp']
  · intro hn
    have hn' : c.Locals valuesKey = none := hn
    simp [GetHubFromContext, hn']
  · intro d hd
    have hd' : c.Locals valuesKey = some (LocalVal.other d) := hd
    simp [GetHubFromContext, hd']

/-- Witness for C5: a stored hub is returned, an empty storage and a stored
string both give nil. -/
theorem GetHubFromContext_cases_witness :
    GetHubFromContext { Context := reqPanic, locals := [("user", .other "id"), ("sentry", .hub (some 3))] }
      = some 3 ∧
    GetHubFromContext { Context := reqPanic, locals := [("user", .other "id")] } = none ∧
    GetHubFromContext { Context := reqPanic, locals := [("sentry", .other "string")] } = none :=
  ⟨(GetHubFromContext_cases
      { Context := reqPanic, locals := [("user", .other "id"), ("sentry", .hub (some 3))] }).2.1
      (some 3) (by decide),
   (GetHubFromContext_cases { Context := reqPanic, locals := [("user", .other "id")] }).2.2.1
      (by decide),
   (GetHubFromContext_cases { Context := reqPanic, locals := [("sentry", .other "string")] }).2.2.2
      "string" (by decide)⟩

theorem run_accessor_stable (fresh : Nat) (p : Prog) (c : Ctx)
    (hk : p.keepsKey valuesKey) (hc : c.Locals valuesKey = some (LocalVal.hub (some fresh))) :
    ∀ r, Call.accessor r ∈ (p.run c).calls → r = some fresh := by
  induction p generalizing c with
  | ret e => intro r hr; simp [Prog.run] at hr
  | panic v => intro r hr; simp [Prog.run] at hr
  | getHub k ih =>
    intro r hr
    have hg : GetHubFromContext c = some fresh := by simp [GetHubFromContext, hc]
    simp only [Prog.run, List.mem_cons, Call.accessor.injEq] at hr
    rcases hr with hr | hr
    · rw [hr, hg]
    · exact ih _ c (hk _) hc r hr
  | setLocals key value k ih =>
    intro r hr
    simp only [Prog.run] at hr
    obtain ⟨hne, hk'⟩ := hk
    refine ih (c.SetLocals key value) hk' ?_ r hr
    have hne' : ¬ valuesKey = key := fun e => hne e.symm
    simp only [Ctx.Locals, Ctx.SetLocals, fetch_store, hne', if_false]
    exact hc
  | hubCall hub op k ih =>
    intro r hr
    cases hub with
    | none => simp [Prog.run] at hr
    | some hb =>
      simp only [Prog.run, List.mem_cons] at hr
      rcases hr with hr | hr
      · cases hr
      · exact ih c hk hc r hr

/-- Claim C4, as amended: when the downstream handler does not itself write
request-local storage under the key `sentry`, every call of
`GetHubFromContext` it makes returns a present hub, always the same one: the
hub `Handle` cloned at entry, installed the snapshot and raw body on, and uses
to report a panic. -/
theorem accessor_returns_cloned_hub (lib : Lib) (sdk : Sdk) (h : Handler) (fresh : Nat)
    (next : Prog) (c : Ctx) (hk : next.keepsKey valuesKey) :
    (∀ r, Call.accessor r ∈ (h.Handle lib sdk fresh next c).calls → r = some fresh) ∧
    (∃ req rest, (h.Handle lib sdk fresh next c).calls
        = Call.clone fresh :: (convert lib c.Context).logged.map Call.logged
          ++ [Call.setRequest fresh req, Call.setRequestBody fresh c.Body] ++ rest) ∧
    (∀ v, (next.run (c.instrumented fresh)).out = .panic v →
        Call.recoverWithContext fresh c.Context v ∈ (h.Handle lib sdk fresh next c).calls) := by
  obtain ⟨req, tail, hreq, hcalls, htail⟩ := Handle_calls lib sdk h fresh next c
  refine ⟨?_, ⟨req, (next.run (c.instrumented fresh)).calls ++ tail, ?_⟩, ?_⟩
  · intro r hr
    rw [hcalls] at hr
    simp only [List.mem_append] at hr
    rcases hr with (hr | hr) | hr
    · simp [Handler.prelude] at hr
    · refine run_accessor_stable fresh next (c.instrumented fresh) hk ?_ r hr
      simp [Ctx.instrumented, Ctx.Locals, Ctx.SetLocals, fetch_store]
    · rcases htail _ hr with ⟨_, _, _, e⟩ | ⟨_, _, e⟩ | ⟨_, e⟩ <;> cases e
  · rw [hcalls]
    simp [Handler.prelude]
  · intro v hv
    rw [Handle_of_panic lib sdk h fresh next c req v hreq hv]
    simp

/-- Witness for C4 as amended: a handler that asks for the hub twice gets hub
7 both times. -/
theorem accessor_returns_cloned_hub_witness :
    (∀ r, Call.accessor r ∈ ((New {}).Handle sampleLib sampleSdk 7 routeTwice
        { Context := reqPost, locals := [("sentry", .hub (some 2))] }).calls → r = some 7) ∧
    ((New {}).Handle sampleLib sampleSdk 7 routeTwice
        { Context := reqPost, locals := [("sentry", .hub (some 2))] }).calls.filter
          (fun x => decide (x = Call.accessor (some 7)))
      = [Call.accessor (some 7), Call.accessor (some 7)] :=
  ⟨(accessor_returns_cloned_hub sampleLib sampleSdk (New {}) 7 routeTwice
      { Context := reqPost, locals := [("sentry", .hub (some 2))] }
      (fun _ _ => trivial)).1,
   by decide⟩

/-- Counterexample to C4 as stated: a downstream handler that stores a string
under `sentry` and then calls `GetHubFromContext` gets nil, not the hub that
`Handle` cloned. -/
theorem accessor_after_overwrite :
    ¬ (∀ (lib : Lib) (sdk : Sdk) (h : Handler) (fresh : Nat) (next : Prog) (c : Ctx)
        (r : Option Nat),
        Call.accessor r ∈ (h.Handle lib sdk fresh next c).calls → r = some fresh) := by
  intro hall
  have h := hall sampleLib sampleSdk (New {}) 7 routeOverwrite
    { Context := reqPanic, locals := [] } none (by decide)
  cases h

/-! ## Body -/

/-- Claim C7, as amended: whatever the length of the native body, a snapshot
returned by `convert` carries the whole native body, and a snapshot is
returned whenever the URL parses and the iterations complete.  The raw body
`Handle` installs on the scope of the cloned hub, in exactly one call, is what
fiber's `c.Body()` returns; it is the same whole native body whenever
`c.Body()` returns the native body undecoded. -/
theorem snapshot_body_whole (lib : Lib) (sdk : Sdk) (h : Handler) (fresh : Nat)
    (next : Prog) (c : Ctx) :
    (∀ r, (convert lib c.Context).out = .ret (some r) → r.Body = some c.Context.Body) ∧
    (∀ u, lib.parseURL (c.Context.Scheme ++ "://" ++ c.Context.Host ++ c.Context.Path) = some u →
      c.Context.Headers.fault = none → c.Context.Cookies.fault = none →
      ∃ r, (convert lib c.Context).out = .ret (some r) ∧ r.Body = some c.Context.Body) ∧
    (h.Handle lib sdk fresh next c).calls.filter
        (fun x => match x with | .setRequestBody _ _ => true | _ => false)
      = [Call.setRequestBody fresh c.Body] ∧
    (c.Body = c.Context.Body →
      (h.Handle lib sdk fresh next c).calls.filter
          (fun x => match x with | .setRequestBody _ _ => true | _ => false)
        = [Call.setRequestBody fresh c.Context.Body]) := by
  have installed : (h.Handle lib sdk fresh next c).calls.filter
        (fun x => match x with | .setRequestBody _ _ => true | _ => false)
      = [Call.setRequestBody fresh c.Body] := by
    obtain ⟨req, tail, hreq, hcalls, htail⟩ := Handle_calls lib sdk h fresh next c
    rw [hcalls]
    simp only [List.filter_append]
    rw [run_calls_filter next _ _ (fun _ => rfl) (fun _ _ => rfl)]
    have ht : tail.filter (fun x => match x with | .setRequestBody _ _ => true | _ => false) = [] := by
      apply List.filter_eq_nil_iff.mpr
      intro x hx
      rcases htail x hx with ⟨_, _, _, rfl⟩ | ⟨_, _, rfl⟩ | ⟨_, rfl⟩ <;> simp
    rw [ht]
    simp [Handler.prelude, List.filter_cons, List.filter_map]
  refine ⟨fun r hr => convert_body_field lib c.Context r hr, ?_, installed, ?_⟩
  · intro u hp hh hc
    rw [convert_success lib c.Context u hp hh hc]
    exact ⟨_, rfl, rfl⟩
  · intro hb
    rw [installed, hb]

/-- Witness for C7 as amended: `POST /post` with body `payload` and no content
encoding gives a snapshot whose body is `payload`, and `Handle` installs
`payload` as raw body on hub 7; with `Content-Encoding: gzip` the snapshot
still carries `payload` while the installed raw body is what `c.Body()`
returned. -/
theorem snapshot_body_whole_witness :
    (∃ r, (convert sampleLib reqPost).out = .ret (some r) ∧ r.Body = some "payload") ∧
    ((New {}).Handle sampleLib sampleSdk 7 routePost
        { Context := reqPost, locals := [] }).calls.filter
        (fun x => match x with | .setRequestBody _ _ => true | _ => false)
      = [Call.setRequestBody 7 "payload"] ∧
    (∃ r, (convert sampleLib reqGzip).out = .ret (some r) ∧ r.Body = some "payload") ∧
    ((New {}).Handle sampleLib sampleSdk 7 routePost ctxGzip).calls.filter
        (fun x => match x with | .setRequestBody _ _ => true | _ => false)
      = [Call.setRequestBody 7 "unexpected EOF"] :=
  ⟨(snapshot_body_whole sampleLib sampleSdk (New {}) 7 routePost
      { Context := reqPost, locals := [] }).2.1
      { Scheme := "http", Host := "", Path := "/post", RawQuery := "" }
      (by decide) (by decide) (by decide),
   (snapshot_body_whole sampleLib sampleSdk (New {}) 7 routePost
      { Context := reqPost, locals := [] }).2.2.2 rfl,
   (snapshot_body_whole sampleLib sampleSdk (New {}) 7 routePost ctxGzip).2.1
      { Scheme := "http", Host := "", Path := "/post", RawQuery := "" }
      (by decide) (by decide) (by decide),
   (snapshot_body_whole sampleLib sampleSdk (New {}) 7 routePost ctxGzip).2.2.1⟩

/-- Counterexample to C7 as stated: for `POST /post` with body `payload` and
`Content-Encoding: gzip`, the raw body `Handle` installs on the scope is the
text `unexpected EOF` returned by `c.Body()`, not the native body, while the
snapshot of `convert` does carry `payload`. -/
theorem raw_body_not_native :
    ¬ (∀ (lib : Lib) (sdk : Sdk) (h : Handler) (fresh : Nat) (next : Prog) (c : Ctx)
        (hub : Nat) (b : String),
        Call.setRequestBody hub b ∈ (h.Handle lib sdk fresh next c).calls →
        b = c.Context.Body) := by
  intro hall
  have h := hall sampleLib sampleSdk (New {}) 7 routePost ctxGzip 7 "unexpected EOF" (by decide)
  revert h
  decide

end SentryFiber
